import Mathlib

/-!
Verification of the sequential tool-orchestration core of the RAG chatbot
(`backend/ai_generator.py`, class `AIGenerator`).

The embedding is shallow and executable:

* The Anthropic client (`self.client.messages.create`) is modelled as an
  oracle `Nat → ModelResponse`: the n-th request issued during one
  `generate_response` call receives response `oracle n`.  Each function
  threads the index of the next request and records every request it issued.
* A run produces a `RunOutput`: the returned text (or the uncaught Python
  exception, as `Except`), the ordered list of model requests issued, and the
  ordered trace of tool-executor invocations.
* Python dictionaries with fixed keys become structures.  The constant
  `"type": "tool_result"` entry of result dictionaries is a literal in the
  source and is omitted from the structures.
* Python truthiness of the optional arguments (`None` and `[]` and `""` are
  falsy) is modelled explicitly where the source branches on it.
-/

/-- A `tool_use` content block of a model response: tool name, unique
invocation id, and structured arguments (modelled as key/value pairs). -/
structure ToolUseBlock where
  name : String
  id : String
  input : List (String × String)
deriving DecidableEq, Repr

/-- A content block of a model response: a text block or a tool-use block. -/
inductive ContentBlock where
  | text (s : String)
  | tool_use (b : ToolUseBlock)
deriving DecidableEq, Repr

/-- A response from the language-model service: `stop_reason` and the ordered
content blocks. -/
structure ModelResponse where
  stop_reason : String
  content : List ContentBlock
deriving DecidableEq, Repr

/-- A `tool_result` entry of a user reply turn, as assembled by both paths:
the invocation id it answers and its textual content.  (The constant
`"type": "tool_result"` key is omitted.) -/
structure ToolResultRef where
  tool_use_id : String
  content : String
deriving DecidableEq, Repr

/-- The content of one conversation turn: a plain string (user query or
synthesis instruction), the raw content blocks of a model response (assistant
turns), or a list of tool results (user reply turns). -/
inductive MessageContent where
  | str (s : String)
  | blocks (bs : List ContentBlock)
  | results (rs : List ToolResultRef)
deriving DecidableEq, Repr

/-- One conversation turn: role (`"user"` or `"assistant"`) and content. -/
structure Message where
  role : String
  content : MessageContent
deriving DecidableEq, Repr

/-- One request to the language-model service: the system text, the ordered
turns, and the tool schemas when attached (`none` models a request issued
without the `tools` key, i.e. with tools disabled; `tool_choice` is the
constant `auto` whenever tools are attached and is omitted).  Tool schemas
are uninterpreted by the controller and modelled as strings. -/
structure ModelRequest where
  system : String
  messages : List Message
  tools : Option (List String)
deriving DecidableEq, Repr

/-- The tool executor (`tool_manager`): `execute_tool name args` returns the
tool output text on success and the exception text on failure. -/
structure ToolManager where
  execute_tool : String → List (String × String) → Except String String

/-- A tool-result record of the sequential path (`_execute_round_tools`):
invocation id, content, tool name, round number, the original arguments
(present only on success) and the error flag (the `"error": True` key is
present only on failure; success records carry no such key, modelled as
`error := false`). -/
structure ToolResult where
  tool_use_id : String
  content : String
  tool_name : String
  round : Nat
  parameters : Option (List (String × String))
  error : Bool
deriving DecidableEq, Repr

/-- Trace instrumentation: one executor invocation, with the sequential round
that issued it (`0` for the legacy single-round path, which has no round
numbering). -/
structure ToolCall where
  name : String
  input : List (String × String)
  round : Nat
deriving DecidableEq, Repr

/-- An uncaught Python exception escaping `generate_response`:
`badContent` models `response.content[0].text` failing (empty content or a
non-text first block), `toolException e` models an executor exception `e`
propagating out of the legacy path. -/
inductive GenError where
  | badContent
  | toolException (msg : String)
deriving DecidableEq, Repr

/-- The observable outcome of one `generate_response` call: the returned text
(or the uncaught exception), every model request issued, and every executor
invocation performed, each in order. -/
structure RunOutput where
  answer : Except GenError String
  requests : List ModelRequest
  calls : List ToolCall
deriving Repr

/-- Source constant `AIGenerator.SYSTEM_PROMPT`, verbatim. -/
def SYSTEM_PROMPT : String :=
  " You are an AI assistant specialized in course materials and educational content with access to tools for course information.\n\nAvailable Tools:\n1. **search_course_content**: Search within course materials for specific content and detailed educational materials\n2. **get_course_outline**: Get complete course information including title, instructor, course link, and all lesson numbers/titles\n\nTool Usage Guidelines:\n- For **course outline/structure queries**: Use get_course_outline to retrieve course title, course link, instructor, and complete lesson list\n- For **course content questions**: Use search_course_content to find specific materials within lessons\n- For **general knowledge questions**: Answer using existing knowledge without searching\n- **Sequential tool calling**: You can make multiple tool calls (up to 2 rounds) when complex queries require multi-step reasoning\n- Synthesize tool results into accurate, fact-based responses\n- If tools yield no results, state this clearly without offering alternatives\n\nMulti-Step Query Examples:\n- \"Find a course covering the same topic as lesson 3 of Course X\" → Round 1: get outline for Course X, Round 2: search for similar topics\n- \"Compare the lesson structure between two courses\" → Round 1: get outline for first course, Round 2: get outline for second course\n- \"What content comes after the API basics lesson in the Computer Use course?\" → Round 1: get course outline, Round 2: search content from subsequent lessons\n\nWhen to Continue vs. Stop:\n- **Continue to Round 2** if: You need additional information from a different source, comparison requires multiple outlines, or initial results suggest related content exists elsewhere\n- **Stop after Round 1** if: Single tool call provides complete answer, no additional information would be helpful, or query is fully addressed\n- **Stop immediately** if: Query can be answered with general knowledge, tools would not provide relevant information\n\nResponse Protocol:\n- **No meta-commentary**: Provide direct answers only — no reasoning process, tool explanations, or question-type analysis\n- Do not mention \"based on the search results,\" \"using the tool,\" or \"in my first/second search\"\n- For outline queries: Always include course title, course link, and complete numbered lesson list when available\n- For multi-step queries: Synthesize information from all rounds into a cohesive response\n\nAll responses must be:\n1. **Brief, Concise and focused** - Get to the point quickly\n2. **Educational** - Maintain instructional value\n3. **Clear** - Use accessible language\n4. **Example-supported** - Include relevant examples when they aid understanding\nProvide only the direct answer to what was asked.\n"

/-- The system-content computation shared verbatim by
`_generate_single_round_response` and `_execute_tool_rounds`:
`f"{SYSTEM_PROMPT}\n\nPrevious conversation:\n{h}" if conversation_history
else SYSTEM_PROMPT`.  Python truthiness: `None` and `""` are falsy. -/
def build_system_content (conversation_history : Option String) : String :=
  match conversation_history with
  | some h => if h = "" then SYSTEM_PROMPT
              else SYSTEM_PROMPT ++ "\n\nPrevious conversation:\n" ++ h
  | none => SYSTEM_PROMPT

/-- Python truthiness of the optional `tools` argument: `None` and the empty
list are falsy. -/
def toolsTruthy : Option (List String) → Bool
  | none => false
  | some ts => !ts.isEmpty

/-- Python `sep.join(parts)`. -/
def joinWith (sep : String) : List String → String
  | [] => ""
  | [x] => x
  | x :: y :: rest => x ++ sep ++ joinWith sep (y :: rest)

/-- The tool-use blocks of a content list, in order (the source iterates the
content and acts on blocks with `type == "tool_use"`). -/
def toolUses : List ContentBlock → List ToolUseBlock
  | [] => []
  | ContentBlock.text _ :: rest => toolUses rest
  | ContentBlock.tool_use b :: rest => b :: toolUses rest

/-- Model of `response.content[0].text`: succeeds with the text of the first content
block when that block is a text block, otherwise the attribute/index access
raises (modelled as `GenError.badContent`). -/
def firstTextE (r : ModelResponse) : Except GenError String :=
  match r.content with
  | ContentBlock.text s :: _ => Except.ok s
  | _ => Except.error GenError.badContent

/-- The per-result entry rendered by `_format_round_results`:
`f"{tool_name} → {content_preview}..."` with the preview truncated to the
first 150 characters. -/
def entryString (r : ToolResult) : String :=
  r.tool_name ++ " → " ++ r.content.take 150 ++ "..."

/-- The accumulator loop of `_format_round_results`: `formatted` is the list
of finished lines, `current_round` the round being grouped (initially `1`),
`round_tools` the rendered entries of the current group. -/
def formatLoop : List ToolResult → List String → Nat → List String → List String
  | [], formatted, current_round, round_tools =>
      if round_tools.isEmpty then formatted
      else formatted ++ ["Round " ++ toString current_round ++ ": " ++ joinWith ", " round_tools]
  | result :: rest, formatted, current_round, round_tools =>
      if result.round ≠ current_round then
        formatLoop rest
          (if round_tools.isEmpty then formatted
           else formatted ++ ["Round " ++ toString current_round ++ ": " ++ joinWith ", " round_tools])
          result.round [entryString result]
      else
        formatLoop rest formatted current_round (round_tools ++ [entryString result])

/-- Source method `AIGenerator._format_round_results`. -/
def _format_round_results (round_results : List ToolResult) : String :=
  if round_results.isEmpty then "No tool results available."
  else joinWith "\n" (formatLoop round_results [] 1 [])

/-- The enumerated entry lines of `_build_round_context`
(`for i, result in enumerate(round_results[-3:], 1)`): each line shows the
tool name and the first 200 characters of the content. -/
def contextEntries : List ToolResult → Nat → List String
  | [], _ => []
  | r :: rest, i =>
      ("- Tool " ++ toString i ++ ": " ++ r.tool_name ++ " → " ++ r.content.take 200 ++ "...")
        :: contextEntries rest (i + 1)

/-- Source method `AIGenerator._build_round_context`; `round_results[-3:]` is
`drop (length - 3)`. -/
def _build_round_context (original_query : String) (round_results : List ToolResult)
    (current_round : Nat) : String :=
  if round_results.isEmpty then
    "Round " ++ toString current_round ++ ": Initial analysis of query."
  else
    joinWith "\n"
      (("Round " ++ toString current_round ++ ": Previous tool results available:")
        :: (contextEntries (round_results.drop (round_results.length - 3)) 1
            ++ ["Use this information to decide if you need additional tool calls or can provide a complete answer."]))

/-- Source method `AIGenerator._execute_round_tools`: one result per requested tool, in
order; an executor exception is caught per invocation and converted into an
error-flagged result with content `f"Tool execution failed: {str(e)}"`. -/
def _execute_round_tools (tool_manager : ToolManager) (round_number : Nat) :
    List ContentBlock → List ToolResult
  | [] => []
  | ContentBlock.text _ :: rest => _execute_round_tools tool_manager round_number rest
  | ContentBlock.tool_use b :: rest =>
      (match tool_manager.execute_tool b.name b.input with
       | Except.ok s =>
           { tool_use_id := b.id, content := s, tool_name := b.name,
             round := round_number, parameters := some b.input, error := false }
       | Except.error e =>
           { tool_use_id := b.id, content := "Tool execution failed: " ++ e,
             tool_name := b.name, round := round_number, parameters := none, error := true })
        :: _execute_round_tools tool_manager round_number rest

/-- The synthesis instruction text of `_synthesize_final_response`, verbatim
(a triple-quoted f-string keeping its indentation), around the formatted
digest of all tool results. -/
def synthesisContextOf (digest : String) : String :=
  "\n        All tool rounds completed. Synthesize the information to answer the original query.\n        \n        Tool Results Summary:\n        "
    ++ digest
    ++ "\n        \n        Provide a comprehensive answer to the original query using all gathered information.\n        "

/-- Source method `AIGenerator._synthesize_final_response`: one final model request with
tools disabled, appending a user turn holding the synthesis instruction, and
returning `final_response.content[0].text`.  `idx` is the oracle index of
this request.  (`original_query` is accepted and unused, as in the source.) -/
def _synthesize_final_response (oracle : Nat → ModelResponse) (idx : Nat)
    (original_query : String) (messages : List Message) (system_content : String)
    (round_results : List ToolResult) : RunOutput :=
  { answer := firstTextE (oracle idx),
    requests := [{ system := system_content,
                   messages := messages
                     ++ [{ role := "user",
                           content := MessageContent.str (synthesisContextOf (_format_round_results round_results)) }],
                   tools := none }],
    calls := [] }

/-- The tool-execution loop of `_handle_tool_execution` (legacy path): every
requested tool is executed in order, one `ToolResultRef` per request; an
executor exception is NOT caught, so it aborts the loop.  Returns the results
(or the exception) together with the executor invocations performed. -/
def legacy_exec_tools (tool_manager : ToolManager) :
    List ContentBlock → Except String (List ToolResultRef) × List ToolCall
  | [] => (Except.ok [], [])
  | ContentBlock.text _ :: rest => legacy_exec_tools tool_manager rest
  | ContentBlock.tool_use b :: rest =>
      match tool_manager.execute_tool b.name b.input with
      | Except.error e => (Except.error e, [{ name := b.name, input := b.input, round := 0 }])
      | Except.ok s =>
          let tail := legacy_exec_tools tool_manager rest
          ((tail.1.map fun rs => { tool_use_id := b.id, content := s } :: rs),
           { name := b.name, input := b.input, round := 0 } :: tail.2)

/-- Source method `AIGenerator._handle_tool_execution`: appends the assistant tool-use turn,
executes all tools (uncaught on failure), appends the single user turn of
results when non-empty, then issues one follow-up request without tools and
returns its first text.  `idx` is the oracle index of the follow-up request. -/
def _handle_tool_execution (oracle : Nat → ModelResponse) (idx : Nat)
    (initial_response : ModelResponse) (base_system : String)
    (base_messages : List Message) (tool_manager : ToolManager) : RunOutput :=
  let messages := base_messages
    ++ [{ role := "assistant", content := MessageContent.blocks initial_response.content }]
  match legacy_exec_tools tool_manager initial_response.content with
  | (Except.error e, calls) =>
      { answer := Except.error (GenError.toolException e), requests := [], calls := calls }
  | (Except.ok tool_results, calls) =>
      let messages := if tool_results.isEmpty then messages
        else messages ++ [{ role := "user", content := MessageContent.results tool_results }]
      { answer := firstTextE (oracle idx),
        requests := [{ system := base_system, messages := messages, tools := none }],
        calls := calls }

/-- Source method `AIGenerator._generate_single_round_response` (legacy path): one request
with the query as sole user turn (tools attached only when truthy); on a
`tool_use` stop reason with an executor present, delegate to
`_handle_tool_execution`, otherwise return `response.content[0].text`. -/
def _generate_single_round_response (oracle : Nat → ModelResponse) (query : String)
    (conversation_history : Option String) (tools : Option (List String))
    (tool_manager : Option ToolManager) : RunOutput :=
  let system_content := build_system_content conversation_history
  let first_request : ModelRequest :=
    { system := system_content,
      messages := [{ role := "user", content := MessageContent.str query }],
      tools := if toolsTruthy tools then tools else none }
  let response := oracle 0
  if response.stop_reason = "tool_use" then
    match tool_manager with
    | some tm =>
        let inner := _handle_tool_execution oracle 1 response system_content
          [{ role := "user", content := MessageContent.str query }] tm
        { answer := inner.answer, requests := first_request :: inner.requests,
          calls := inner.calls }
    | none =>
        { answer := firstTextE response, requests := [first_request], calls := [] }
  else
    { answer := firstTextE response, requests := [first_request], calls := [] }

/-- The `while current_round <= max_rounds` loop of `_execute_tool_rounds`,
fuel-indexed: `fuel = max_rounds + 1 - current_round` at every entry, so
`fuel = 0` is exactly the exit into `_synthesize_final_response`.  `idx` is
the oracle index of the next request. -/
def _execute_tool_rounds_loop (oracle : Nat → ModelResponse) (tool_manager : ToolManager)
    (tools : List String) (query : String) (system_content : String) :
    Nat → Nat → List Message → List ToolResult → Nat → RunOutput
  | 0, _current_round, messages, round_results, idx =>
      _synthesize_final_response oracle idx query messages system_content round_results
  | fuel + 1, current_round, messages, round_results, idx =>
      let round_context := _build_round_context query round_results current_round
      let request : ModelRequest :=
        { system := system_content ++ "\n\n" ++ round_context,
          messages := messages, tools := some tools }
      let response := oracle idx
      if response.stop_reason = "tool_use" then
        let tool_results := _execute_round_tools tool_manager current_round response.content
        let rest := _execute_tool_rounds_loop oracle tool_manager tools query system_content
          fuel (current_round + 1)
          (messages
            ++ [{ role := "assistant", content := MessageContent.blocks response.content },
                { role := "user",
                  content := MessageContent.results
                    (tool_results.map fun r => { tool_use_id := r.tool_use_id, content := r.content }) }])
          (round_results ++ tool_results) (idx + 1)
        { answer := rest.answer,
          requests := request :: rest.requests,
          calls := ((toolUses response.content).map fun b =>
            { name := b.name, input := b.input, round := current_round }) ++ rest.calls }
      else
        { answer := firstTextE response, requests := [request], calls := [] }

/-- Source method `AIGenerator._execute_tool_rounds`: the sequential path, starting at round
1 with the query as sole user turn and no accumulated results. -/
def _execute_tool_rounds (oracle : Nat → ModelResponse) (query : String)
    (conversation_history : Option String) (tools : List String)
    (tool_manager : ToolManager) (max_rounds : Nat) : RunOutput :=
  _execute_tool_rounds_loop oracle tool_manager tools query
    (build_system_content conversation_history) max_rounds 1
    [{ role := "user", content := MessageContent.str query }] [] 0

/-- Source method `AIGenerator.generate_response`: dispatches to the sequential path when
`enable_sequential and tools and tool_manager and max_tool_rounds > 1`
(Python truthiness), and to the legacy single-round path otherwise. -/
def generate_response (oracle : Nat → ModelResponse) (query : String)
    (conversation_history : Option String) (tools : Option (List String))
    (tool_manager : Option ToolManager) (max_tool_rounds : Nat)
    (enable_sequential : Bool) : RunOutput :=
  match enable_sequential, tools, tool_manager with
  | true, some ts, some tm =>
      if ts.isEmpty = false ∧ 1 < max_tool_rounds then
        _execute_tool_rounds oracle query conversation_history ts tm max_tool_rounds
      else
        _generate_single_round_response oracle query conversation_history tools tool_manager
  | _, _, _ =>
      _generate_single_round_response oracle query conversation_history tools tool_manager

/-! ## Run characterization of the sequential loop

Closed forms for the state the loop threads from round to round, and the
lemma that a run whose first `f` responses all stop with `tool_use` walks
through all `f` rounds and ends in the synthesis request. -/

/-- The two turns one tool-use round appends to the conversation: the
raw assistant content and the user turn bundling the results of that round. -/
def stepMessages (oracle : Nat → ModelResponse) (tool_manager : ToolManager)
    (idx round : Nat) : List Message :=
  [{ role := "assistant", content := MessageContent.blocks (oracle idx).content },
   { role := "user",
     content := MessageContent.results
       ((_execute_round_tools tool_manager round (oracle idx).content).map
         fun r => { tool_use_id := r.tool_use_id, content := r.content }) }]

/-- The requests issued by `f` consecutive tool-use rounds starting at round
`c`, oracle index `i`, conversation `m` and accumulated results `rs`. -/
def reqsFrom (oracle : Nat → ModelResponse) (tool_manager : ToolManager)
    (tools : List String) (query : String) (system_content : String) :
    Nat → Nat → List Message → List ToolResult → Nat → List ModelRequest
  | 0, _, _, _, _ => []
  | f + 1, c, m, rs, i =>
      { system := system_content ++ "\n\n" ++ _build_round_context query rs c,
        messages := m, tools := some tools }
        :: reqsFrom oracle tool_manager tools query system_content f (c + 1)
            (m ++ stepMessages oracle tool_manager i c)
            (rs ++ _execute_round_tools tool_manager c (oracle i).content) (i + 1)

/-- The executor invocations of `f` consecutive tool-use rounds: round by
round, the tool-use blocks the model requested, in order. -/
def callsFrom (oracle : Nat → ModelResponse) : Nat → Nat → Nat → List ToolCall
  | 0, _, _ => []
  | f + 1, c, i =>
      ((toolUses (oracle i).content).map fun b => { name := b.name, input := b.input, round := c })
        ++ callsFrom oracle f (c + 1) (i + 1)

/-- The conversation after `f` consecutive tool-use rounds. -/
def endMessages (oracle : Nat → ModelResponse) (tool_manager : ToolManager) :
    Nat → Nat → List Message → Nat → List Message
  | 0, _, m, _ => m
  | f + 1, c, m, i =>
      endMessages oracle tool_manager f (c + 1) (m ++ stepMessages oracle tool_manager i c) (i + 1)

/-- The accumulated tool results after `f` consecutive tool-use rounds. -/
def endResults (oracle : Nat → ModelResponse) (tool_manager : ToolManager) :
    Nat → Nat → List ToolResult → Nat → List ToolResult
  | 0, _, rs, _ => rs
  | f + 1, c, rs, i =>
      endResults oracle tool_manager f (c + 1)
        (rs ++ _execute_round_tools tool_manager c (oracle i).content) (i + 1)

/-- Master run lemma: if every one of the `f` remaining rounds answers with
stop reason `tool_use`, the loop issues the `f` round requests and the final
synthesis request, executes exactly the requested tools round by round, and
returns the first text of the synthesis response. -/
theorem loop_all_tool_use (oracle : Nat → ModelResponse) (tool_manager : ToolManager)
    (tools : List String) (query system_content : String) :
    ∀ (f c : Nat) (m : List Message) (rs : List ToolResult) (i : Nat),
      (∀ j, j < f → (oracle (i + j)).stop_reason = "tool_use") →
      _execute_tool_rounds_loop oracle tool_manager tools query system_content f c m rs i =
        { answer := firstTextE (oracle (i + f)),
          requests :=
            reqsFrom oracle tool_manager tools query system_content f c m rs i
              ++ [{ system := system_content,
                    messages := endMessages oracle tool_manager f c m i
                      ++ [{ role := "user",
                            content := MessageContent.str
                              (synthesisContextOf (_format_round_results
                                (endResults oracle tool_manager f c rs i))) }],
                    tools := none }],
          calls := callsFrom oracle f c i } := by
  intro f
  induction f with
  | zero =>
      intro c m rs i _h
      simp [_execute_tool_rounds_loop, _synthesize_final_response, reqsFrom, callsFrom,
        endMessages, endResults]
  | succ f ih =>
      intro c m rs i h
      have h0 : (oracle i).stop_reason = "tool_use" := by
        simpa using h 0 (Nat.succ_pos f)
      have harith : i + 1 + f = i + (f + 1) := by omega
      have hrest := ih (c + 1)
        (m ++ stepMessages oracle tool_manager i c)
        (rs ++ _execute_round_tools tool_manager c (oracle i).content) (i + 1)
        (by
          intro j hj
          have h2 : i + 1 + j = i + (j + 1) := by omega
          rw [h2]
          exact h (j + 1) (by omega))
      simp only [stepMessages] at hrest
      simp only [_execute_tool_rounds_loop, h0, if_true, hrest]
      simp [reqsFrom, callsFrom, endMessages, endResults, stepMessages, harith]

/-- Running `f` rounds issues `f` requests. -/
theorem reqsFrom_length (oracle : Nat → ModelResponse) (tool_manager : ToolManager)
    (tools : List String) (query system_content : String) :
    ∀ (f c : Nat) (m : List Message) (rs : List ToolResult) (i : Nat),
      (reqsFrom oracle tool_manager tools query system_content f c m rs i).length = f := by
  intro f
  induction f with
  | zero => intro c m rs i; simp [reqsFrom]
  | succ f ih => intro c m rs i; simp [reqsFrom, ih]

/-- Every round request carries the tool schemas. -/
theorem mem_reqsFrom_tools (oracle : Nat → ModelResponse) (tool_manager : ToolManager)
    (tools : List String) (query system_content : String) :
    ∀ (f c : Nat) (m : List Message) (rs : List ToolResult) (i : Nat)
      (req : ModelRequest),
      req ∈ reqsFrom oracle tool_manager tools query system_content f c m rs i →
      req.tools = some tools := by
  intro f
  induction f with
  | zero => intro c m rs i req hmem; simp [reqsFrom] at hmem
  | succ f ih =>
      intro c m rs i req hmem
      simp only [reqsFrom, List.mem_cons] at hmem
      rcases hmem with h | h
      · rw [h]
      · exact ih _ _ _ _ req h

/-- The system text of every round request starts with the base system content
(the round context is appended after it). -/
theorem mem_reqsFrom_system (oracle : Nat → ModelResponse) (tool_manager : ToolManager)
    (tools : List String) (query system_content : String) :
    ∀ (f c : Nat) (m : List Message) (rs : List ToolResult) (i : Nat)
      (req : ModelRequest),
      req ∈ reqsFrom oracle tool_manager tools query system_content f c m rs i →
      ∃ suffix, req.system = system_content ++ suffix := by
  intro f
  induction f with
  | zero => intro c m rs i req hmem; simp [reqsFrom] at hmem
  | succ f ih =>
      intro c m rs i req hmem
      simp only [reqsFrom, List.mem_cons] at hmem
      rcases hmem with h | h
      · exact ⟨"\n\n" ++ _build_round_context query rs c, by rw [h]; simp [String.append_assoc]⟩
      · exact ih _ _ _ _ req h

/-- Every traced call of `f` rounds starting at round `c` belongs to one of
the rounds `c, …, c + f - 1`. -/
theorem mem_callsFrom_round (oracle : Nat → ModelResponse) :
    ∀ (f c i : Nat) (cl : ToolCall),
      cl ∈ callsFrom oracle f c i → c ≤ cl.round ∧ cl.round < c + f := by
  intro f
  induction f with
  | zero => intro c i cl hmem; simp [callsFrom] at hmem
  | succ f ih =>
      intro c i cl hmem
      simp only [callsFrom, List.mem_append, List.mem_map] at hmem
      rcases hmem with ⟨b, _, hb⟩ | h
      · have hr : cl.round = c := by rw [← hb]
        omega
      · have := ih (c + 1) (i + 1) cl h
        omega

/-- The function `_execute_round_tools` produces exactly one result per requested tool, in
order, each depending only on its own executor outcome. -/
theorem exec_round_eq_map (tool_manager : ToolManager) (round_number : Nat) :
    ∀ content : List ContentBlock,
      _execute_round_tools tool_manager round_number content =
        (toolUses content).map fun b =>
          match tool_manager.execute_tool b.name b.input with
          | Except.ok s =>
              { tool_use_id := b.id, content := s, tool_name := b.name,
                round := round_number, parameters := some b.input, error := false }
          | Except.error e =>
              { tool_use_id := b.id, content := "Tool execution failed: " ++ e,
                tool_name := b.name, round := round_number, parameters := none, error := true } := by
  intro content
  induction content with
  | nil => simp [_execute_round_tools, toolUses]
  | cons blk rest ih =>
      cases blk with
      | text s => simp [_execute_round_tools, toolUses, ih]
      | tool_use b => simp [_execute_round_tools, toolUses, ih]

/-- A round whose response requests no tools records no results. -/
theorem exec_round_nil (tool_manager : ToolManager) (round_number : Nat)
    (content : List ContentBlock) (h : toolUses content = []) :
    _execute_round_tools tool_manager round_number content = [] := by
  rw [exec_round_eq_map, h]
  rfl

/-- Every request any sequential-loop run issues (any stop reasons, any
errors) has the base system content as a prefix of its system text. -/
theorem mem_loop_requests_system (oracle : Nat → ModelResponse) (tool_manager : ToolManager)
    (tools : List String) (query system_content : String) :
    ∀ (f c : Nat) (m : List Message) (rs : List ToolResult) (i : Nat)
      (req : ModelRequest),
      req ∈ (_execute_tool_rounds_loop oracle tool_manager tools query system_content
        f c m rs i).requests →
      ∃ suffix, req.system = system_content ++ suffix := by
  intro f
  induction f with
  | zero =>
      intro c m rs i req hmem
      simp only [_execute_tool_rounds_loop, _synthesize_final_response,
        List.mem_singleton] at hmem
      exact ⟨"", by rw [hmem]; simp⟩
  | succ f ih =>
      intro c m rs i req hmem
      by_cases hstop : (oracle i).stop_reason = "tool_use"
      · simp only [_execute_tool_rounds_loop, hstop, if_true, List.mem_cons] at hmem
        rcases hmem with h | h
        · exact ⟨"\n\n" ++ _build_round_context query rs c, by rw [h]; simp [String.append_assoc]⟩
        · exact ih _ _ _ _ req h
      · simp only [_execute_tool_rounds_loop, hstop, if_false, List.mem_singleton] at hmem
        exact ⟨"\n\n" ++ _build_round_context query rs c, by rw [hmem]; simp [String.append_assoc]⟩

/-- Characterization of the legacy tool loop when every requested tool
succeeds: one result per request, in the order the model listed them, and one
executor invocation per request in the same order. -/
theorem legacy_exec_tools_ok (tool_manager : ToolManager) (out : ToolUseBlock → String) :
    ∀ content : List ContentBlock,
      (∀ b ∈ toolUses content, tool_manager.execute_tool b.name b.input = Except.ok (out b)) →
      legacy_exec_tools tool_manager content =
        (Except.ok ((toolUses content).map fun b => { tool_use_id := b.id, content := out b }),
         (toolUses content).map fun b => { name := b.name, input := b.input, round := 0 }) := by
  intro content
  induction content with
  | nil => intro _; simp [legacy_exec_tools, toolUses]
  | cons blk rest ih =>
      intro h
      cases blk with
      | text s =>
          simp only [toolUses] at h ⊢
          simp only [legacy_exec_tools]
          exact ih h
      | tool_use b =>
          have hb : tool_manager.execute_tool b.name b.input = Except.ok (out b) := by
            exact h b (by simp [toolUses])
          have hrest : ∀ x ∈ toolUses rest,
              tool_manager.execute_tool x.name x.input = Except.ok (out x) := by
            intro x hx
            exact h x (by simp [toolUses, hx])
          have ihr := ih hrest
          simp [legacy_exec_tools, toolUses, hb, ihr, Except.map]

/-! ## Spec-side rendering of the tool-result digest

The definitions `specGroups` and `renderGroups` transcribe the description in
§4.2: group consecutive entries by their `round` tag, preserving first-seen
order, and render one `"Round N: tool→preview, tool→preview"` line per
group.  `formatLoop_eq_spec` proves that the accumulator loop of the source refines
this description. -/

/-- Consecutive grouping by round tag, each group keeping its rendered
entries in order (built from the right; groups appear in first-seen order). -/
def specGroups : List ToolResult → List (Nat × List String)
  | [] => []
  | r :: rest =>
      match specGroups rest with
      | [] => [(r.round, [entryString r])]
      | (n, es) :: gs =>
          if r.round = n then (n, entryString r :: es) :: gs
          else (r.round, [entryString r]) :: (n, es) :: gs

/-- One `"Round N: …"` line per group. -/
def renderGroups (gs : List (Nat × List String)) : List String :=
  gs.map fun g => "Round " ++ toString g.1 ++ ": " ++ joinWith ", " g.2

/-- Folding the pending loop accumulator (`current_round`, `round_tools`)
into a group list: an empty pending accumulator adds nothing; otherwise it
merges into a leading group of the same round or opens its own group. -/
def consume (cur : Nat) (pending : List String) (gs : List (Nat × List String)) :
    List (Nat × List String) :=
  if pending.isEmpty then gs
  else
    match gs with
    | [] => [(cur, pending)]
    | (n, es) :: rest => if n = cur then (cur, pending ++ es) :: rest
                         else (cur, pending) :: (n, es) :: rest

/-- Pushing one entry into the pending accumulator commutes with grouping. -/
theorem consume_entry (r : ToolResult) (rest : List ToolResult) :
    consume r.round [entryString r] (specGroups rest) = specGroups (r :: rest) := by
  cases hg : specGroups rest with
  | nil => simp [consume, specGroups, hg]
  | cons g gs =>
      obtain ⟨n, es⟩ := g
      by_cases hn : r.round = n
      · simp [consume, specGroups, hg, hn]
      · simp [consume, specGroups, hg, hn, Ne.symm hn]

/-- The head group of a non-empty input carries the round of the first entry. -/
theorem specGroups_cons_head (r : ToolResult) (rest : List ToolResult) :
    ∃ es gs, specGroups (r :: rest) = (r.round, es) :: gs := by
  cases hg : specGroups rest with
  | nil => exact ⟨[entryString r], [], by simp [specGroups, hg]⟩
  | cons g gs =>
      obtain ⟨n, es⟩ := g
      by_cases hn : r.round = n
      · exact ⟨entryString r :: es, gs, by simp [specGroups, hg, hn]⟩
      · exact ⟨[entryString r], (n, es) :: gs, by simp [specGroups, hg, hn]⟩

/-- The accumulator loop of `_format_round_results` renders exactly the
consecutive round groups: finished lines, then the pending group folded into
the groups of the remaining input. -/
theorem formatLoop_eq_spec :
    ∀ (rr : List ToolResult) (formatted : List String) (cur : Nat) (pending : List String),
      formatLoop rr formatted cur pending =
        formatted ++ renderGroups (consume cur pending (specGroups rr)) := by
  intro rr
  induction rr with
  | nil =>
      intro formatted cur pending
      cases pending with
      | nil => simp [formatLoop, consume, specGroups, renderGroups]
      | cons p ps => simp [formatLoop, consume, specGroups, renderGroups]
  | cons r rest ih =>
      intro formatted cur pending
      by_cases hne : r.round = cur
      · -- same round: the entry joins the pending accumulator
        have hcond : ¬(r.round ≠ cur) := by simp [hne]
        simp only [formatLoop, if_neg hcond]
        rw [ih]
        congr 1
        cases hg : specGroups rest with
        | nil =>
            cases pending with
            | nil => simp [consume, specGroups, hg, hne]
            | cons p ps => simp [consume, specGroups, hg, hne]
        | cons g gs =>
            obtain ⟨n, es⟩ := g
            by_cases hn : r.round = n
            · have hnc : n = cur := by rw [← hn, hne]
              cases pending with
              | nil => simp [consume, specGroups, hg, hn, hnc]
              | cons p ps => simp [consume, specGroups, hg, hn, hnc]
            · have hnc : ¬(n = cur) := by
                intro hh; exact hn (by rw [hne, hh])
              have hcn : ¬(cur = n) := by rw [← hne]; exact hn
              cases pending with
              | nil => simp [consume, specGroups, hg, hn, hnc, hne, hcn]
              | cons p ps => simp [consume, specGroups, hg, hn, hnc, hne, hcn]
      · -- new round: flush the pending group, open a fresh one
        have hcond : r.round ≠ cur := hne
        simp only [formatLoop, if_pos hcond]
        rw [ih, consume_entry]
        obtain ⟨es, gs, hg⟩ := specGroups_cons_head r rest
        rw [hg]
        cases pending with
        | nil => simp [consume]
        | cons p ps => simp [consume, renderGroups, hne]

/-- Closed form of `_format_round_results`: the sentinel on empty input,
otherwise one line per consecutive round group. -/
theorem format_results_eq_spec (rr : List ToolResult) :
    _format_round_results rr =
      if rr.isEmpty then "No tool results available."
      else joinWith "\n" (renderGroups (specGroups rr)) := by
  cases rr with
  | nil => simp [_format_round_results]
  | cons r rest =>
      simp only [_format_round_results, List.isEmpty_cons, Bool.false_eq_true, if_false]
      rw [formatLoop_eq_spec]
      simp [consume]

/-- Truncating twice at the same length is truncating once. -/
theorem take_take_self (s : String) (n : Nat) : (s.take n).take n = s.take n := by
  simp [String.take_eq, List.take_take]

/-- A string starting with `"Round "` is never the empty-input sentinel. -/
theorem round_line_ne_sentinel (t : String) :
    "Round " ++ t ≠ "No tool results available." := by
  intro h
  have hd := congrArg String.data h
  rw [String.data_append] at hd
  have hR : ("Round ").data = ['R', 'o', 'u', 'n', 'd', ' '] := rfl
  rw [hR] at hd
  have h1 : (['R', 'o', 'u', 'n', 'd', ' '] ++ t.data).head? = some 'R' := rfl
  rw [hd] at h1
  exact absurd h1 (by decide)

/-- Joining a non-empty list starts with its first element. -/
theorem joinWith_cons_extend (sep x : String) (ls : List String) :
    ∃ t, joinWith sep (x :: ls) = x ++ t := by
  cases ls with
  | nil => exact ⟨"", by simp [joinWith]⟩
  | cons y t => exact ⟨sep ++ joinWith sep (y :: t), by simp [joinWith, String.append_assoc]⟩

/-- The digest is the sentinel exactly on empty input. -/
theorem format_results_sentinel (rr : List ToolResult) :
    _format_round_results rr = "No tool results available." ↔ rr = [] := by
  cases rr with
  | nil => simp [_format_round_results]
  | cons r rest =>
      constructor
      · intro h
        exfalso
        obtain ⟨es, gs, hg⟩ := specGroups_cons_head r rest
        rw [format_results_eq_spec] at h
        simp only [List.isEmpty_cons, Bool.false_eq_true, if_false] at h
        rw [hg] at h
        simp only [renderGroups, List.map_cons] at h
        obtain ⟨t, ht⟩ := joinWith_cons_extend "\n"
          ("Round " ++ toString r.round ++ ": " ++ joinWith ", " es)
          (List.map (fun g => "Round " ++ toString g.1 ++ ": " ++ joinWith ", " g.2) gs)
        rw [ht] at h
        simp only [String.append_assoc] at h
        exact round_line_ne_sentinel _ h
      · intro h
        exact absurd h (by simp)

/-- Rendered entries ignore everything past the 150th content character. -/
theorem entryString_trunc (r : ToolResult) :
    entryString { r with content := r.content.take 150 } = entryString r := by
  simp [entryString, take_take_self]

/-- Grouping ignores everything past the 150th content character. -/
theorem specGroups_trunc (rr : List ToolResult) :
    specGroups (rr.map fun r => { r with content := r.content.take 150 }) = specGroups rr := by
  induction rr with
  | nil => rfl
  | cons r rest ih => simp [specGroups, ih, entryString_trunc]

/-- Context entry lines ignore everything past the 200th content character. -/
theorem contextEntries_trunc :
    ∀ (shown : List ToolResult) (i : Nat),
      contextEntries (shown.map fun r => { r with content := r.content.take 200 }) i =
        contextEntries shown i := by
  intro shown
  induction shown with
  | nil => intro i; rfl
  | cons r rest ih => intro i; simp [contextEntries, ih, take_take_self]

/-- The legacy path on a non-`tool_use` first response: direct return after
the single request. -/
theorem legacy_direct (oracle : Nat → ModelResponse) (query : String)
    (conversation_history : Option String) (tools : Option (List String))
    (tool_manager : Option ToolManager)
    (hstop : (oracle 0).stop_reason ≠ "tool_use") :
    _generate_single_round_response oracle query conversation_history tools tool_manager =
      { answer := firstTextE (oracle 0),
        requests := [{ system := build_system_content conversation_history,
                       messages := [{ role := "user", content := MessageContent.str query }],
                       tools := if toolsTruthy tools then tools else none }],
        calls := [] } := by
  simp [_generate_single_round_response, hstop]

/-- A sequential round on a non-`tool_use` response: direct return after the
single request of that round. -/
theorem loop_not_tool_use (oracle : Nat → ModelResponse) (tool_manager : ToolManager)
    (tools : List String) (query system_content : String)
    (fuel c : Nat) (m : List Message) (rs : List ToolResult) (i : Nat)
    (hstop : (oracle i).stop_reason ≠ "tool_use") :
    _execute_tool_rounds_loop oracle tool_manager tools query system_content
        (fuel + 1) c m rs i =
      { answer := firstTextE (oracle i),
        requests := [{ system := system_content ++ "\n\n" ++ _build_round_context query rs c,
                       messages := m, tools := some tools }],
        calls := [] } := by
  simp [_execute_tool_rounds_loop, hstop]

/-- The sequential path under all-`tool_use` responses, in closed form. -/
theorem tool_rounds_run (oracle : Nat → ModelResponse) (query : String)
    (conversation_history : Option String) (ts : List String) (tm : ToolManager)
    (n : Nat) (hall : ∀ j, j < n → (oracle j).stop_reason = "tool_use") :
    _execute_tool_rounds oracle query conversation_history ts tm n =
      { answer := firstTextE (oracle n),
        requests :=
          reqsFrom oracle tm ts query (build_system_content conversation_history) n 1
              [{ role := "user", content := MessageContent.str query }] [] 0
            ++ [{ system := build_system_content conversation_history,
                  messages := endMessages oracle tm n 1
                      [{ role := "user", content := MessageContent.str query }] 0
                    ++ [{ role := "user",
                          content := MessageContent.str
                            (synthesisContextOf (_format_round_results
                              (endResults oracle tm n 1 [] 0))) }],
                  tools := none }],
        calls := callsFrom oracle n 1 0 } := by
  unfold _execute_tool_rounds
  rw [loop_all_tool_use oracle tm ts query (build_system_content conversation_history) n 1
    _ _ 0 (by simpa using hall)]
  simp

/-- C5: `generate_response` dispatches to the single-round legacy path if and
only if sequential mode is disabled, or the tool schemas are absent
(Python-falsy: `None` or the empty list), or the executor is absent, or
`maxRounds ≤ 1`; in every other case it runs the sequential multi-round
path. -/
theorem claim_C5 (oracle : Nat → ModelResponse) (query : String)
    (conversation_history : Option String) (tools : Option (List String))
    (tool_manager : Option ToolManager) (max_tool_rounds : Nat)
    (enable_sequential : Bool) :
    ((enable_sequential = false ∨ toolsTruthy tools = false ∨ tool_manager = none ∨
        max_tool_rounds ≤ 1) →
      generate_response oracle query conversation_history tools tool_manager
          max_tool_rounds enable_sequential =
        _generate_single_round_response oracle query conversation_history tools tool_manager) ∧
    (∀ ts tm, tools = some ts → tool_manager = some tm → enable_sequential = true →
      toolsTruthy tools = true → 1 < max_tool_rounds →
      generate_response oracle query conversation_history tools tool_manager
          max_tool_rounds enable_sequential =
        _execute_tool_rounds oracle query conversation_history ts tm max_tool_rounds) := by
  constructor
  · intro h
    cases enable_sequential with
    | false => rfl
    | true =>
        cases tools with
        | none => rfl
        | some ts =>
            cases tool_manager with
            | none => rfl
            | some tm =>
                have hcond : ¬(ts.isEmpty = false ∧ 1 < max_tool_rounds) := by
                  rcases h with h | h | h | h
                  · exact absurd h (by simp)
                  · intro hc
                    have hh : ts.isEmpty = true := by
                      simpa [toolsTruthy] using h
                    rw [hc.1] at hh
                    exact absurd hh (by simp)
                  · exact absurd h (by simp)
                  · intro hc
                    omega
                simp only [generate_response]
                rw [if_neg hcond]
  · intro ts tm hts htm hseq htruthy hmax
    subst hts
    subst htm
    subst hseq
    have hempty : ts.isEmpty = false := by
      simpa [toolsTruthy] using htruthy
    simp only [generate_response]
    rw [if_pos ⟨hempty, hmax⟩]

/-- C2: whenever the stop reason of the first model response is not `tool_use`,
`generate_response` (either path, any `maxRounds`, with or without tools or
executor) returns the first text block of that response unchanged and issues
exactly one model request. -/
theorem claim_C2 (oracle : Nat → ModelResponse) (query : String)
    (conversation_history : Option String) (tools : Option (List String))
    (tool_manager : Option ToolManager) (max_tool_rounds : Nat)
    (enable_sequential : Bool) (t : String) (tail : List ContentBlock)
    (hstop : (oracle 0).stop_reason ≠ "tool_use")
    (hfirst : (oracle 0).content = ContentBlock.text t :: tail) :
    (generate_response oracle query conversation_history tools tool_manager
        max_tool_rounds enable_sequential).answer = Except.ok t ∧
    (generate_response oracle query conversation_history tools tool_manager
        max_tool_rounds enable_sequential).requests.length = 1 := by
  have hlegacy :
      (_generate_single_round_response oracle query conversation_history tools
        tool_manager).answer = Except.ok t ∧
      (_generate_single_round_response oracle query conversation_history tools
        tool_manager).requests.length = 1 := by
    rw [legacy_direct oracle query conversation_history tools tool_manager hstop]
    simp [firstTextE, hfirst]
  cases enable_sequential with
  | false => exact hlegacy
  | true =>
      cases tools with
      | none => exact hlegacy
      | some ts =>
          cases tool_manager with
          | none => exact hlegacy
          | some tm =>
              by_cases hcond : ts.isEmpty = false ∧ 1 < max_tool_rounds
              · obtain ⟨m, rfl⟩ : ∃ m, max_tool_rounds = m + 1 :=
                  ⟨max_tool_rounds - 1, by omega⟩
                have hrun : generate_response oracle query conversation_history (some ts)
                    (some tm) (m + 1) true =
                    _execute_tool_rounds oracle query conversation_history ts tm (m + 1) := by
                  simp only [generate_response]
                  rw [if_pos hcond]
                rw [hrun]
                unfold _execute_tool_rounds
                rw [loop_not_tool_use oracle tm ts query
                  (build_system_content conversation_history) m 1
                  [{ role := "user", content := MessageContent.str query }] [] 0 hstop]
                simp [firstTextE, hfirst]
              · have hrun : generate_response oracle query conversation_history (some ts)
                    (some tm) max_tool_rounds true =
                    _generate_single_round_response oracle query conversation_history
                      (some ts) (some tm) := by
                  simp only [generate_response]
                  rw [if_neg hcond]
                rw [hrun]
                exact hlegacy

/-- C8: the tool-result digest groups consecutive entries by round tag in
first-seen order and renders one `Round N:` line per group (the spec-side
rendering `renderGroups ∘ specGroups`), returns the fixed sentinel exactly on
the empty list, and is deterministic. -/
theorem claim_C8 :
    (∀ rr : List ToolResult,
       _format_round_results rr =
         if rr.isEmpty then "No tool results available."
         else joinWith "\n" (renderGroups (specGroups rr))) ∧
    (∀ rr : List ToolResult,
       (_format_round_results rr = "No tool results available." ↔ rr = [])) ∧
    (∀ rr1 rr2 : List ToolResult, rr1 = rr2 →
       _format_round_results rr1 = _format_round_results rr2) := by
  refine ⟨format_results_eq_spec, format_results_sentinel, ?_⟩
  intro rr1 rr2 h
  rw [h]

theorem claim_C8_witness :
    _format_round_results [] = "No tool results available." ∧
    _format_round_results
        [{ tool_use_id := "t1", content := "c1", tool_name := "n1", round := 1,
           parameters := none, error := false }] ≠ "No tool results available." := by
  constructor
  · exact (claim_C8.2.1 []).mpr rfl
  · intro h
    exact absurd ((claim_C8.2.1 _).mp h) (by simp)

/-- C7: the round-context digest depends only on the 3 most recent results
and only on the first 200 characters of each recorded content; the
synthesis-time digest depends only on the first 150 characters of each
content of each result. -/
theorem claim_C7 :
    (∀ (q : String) (c : Nat) (rr1 rr2 : List ToolResult),
       rr1.drop (rr1.length - 3) = rr2.drop (rr2.length - 3) →
       _build_round_context q rr1 c = _build_round_context q rr2 c) ∧
    (∀ (q : String) (c : Nat) (rr : List ToolResult),
       _build_round_context q (rr.map fun r => { r with content := r.content.take 200 }) c =
         _build_round_context q rr c) ∧
    (∀ rr : List ToolResult,
       _format_round_results (rr.map fun r => { r with content := r.content.take 150 }) =
         _format_round_results rr) := by
  have hnil : ∀ rr : List ToolResult, rr.drop (rr.length - 3) = [] ↔ rr = [] := by
    intro rr
    constructor
    · intro h
      have hlen := List.drop_eq_nil_iff.mp h
      cases rr with
      | nil => rfl
      | cons a as => simp at hlen; omega
    · intro h
      rw [h]
      rfl
  refine ⟨?_, ?_, ?_⟩
  · intro q c rr1 rr2 h
    by_cases h1 : rr1 = []
    · have h2 : rr2 = [] := by
        rw [h1] at h
        exact (hnil rr2).mp (by simpa using h.symm)
      rw [h1, h2]
    · have h2 : rr2 ≠ [] := by
        intro h2
        rw [h2] at h
        exact h1 ((hnil rr1).mp (by simpa using h))
      simp only [_build_round_context]
      rw [if_neg (by simpa [List.isEmpty_iff] using h1),
        if_neg (by simpa [List.isEmpty_iff] using h2), h]
  · intro q c rr
    by_cases h : rr = []
    · rw [h]
      rfl
    · have hm : (rr.map fun r => { r with content := r.content.take 200 }) ≠ [] := by
        simpa using h
      simp only [_build_round_context]
      rw [if_neg (by simpa [List.isEmpty_iff] using hm),
        if_neg (by simpa [List.isEmpty_iff] using h)]
      rw [List.length_map, ← List.map_drop, contextEntries_trunc]
  · intro rr
    rw [format_results_eq_spec, format_results_eq_spec, specGroups_trunc]
    cases rr with
    | nil => rfl
    | cons r rest => simp

theorem claim_C7_witness :
    _build_round_context "q"
        [{ tool_use_id := "a", content := "ca", tool_name := "na", round := 1,
           parameters := none, error := false },
         { tool_use_id := "b", content := "cb", tool_name := "nb", round := 1,
           parameters := none, error := false },
         { tool_use_id := "c", content := "cc", tool_name := "nc", round := 2,
           parameters := none, error := false },
         { tool_use_id := "d", content := "cd", tool_name := "nd", round := 2,
           parameters := none, error := false }] 3 =
      _build_round_context "q"
        [{ tool_use_id := "x", content := "cx", tool_name := "nx", round := 9,
           parameters := none, error := false },
         { tool_use_id := "b", content := "cb", tool_name := "nb", round := 1,
           parameters := none, error := false },
         { tool_use_id := "c", content := "cc", tool_name := "nc", round := 2,
           parameters := none, error := false },
         { tool_use_id := "d", content := "cd", tool_name := "nd", round := 2,
           parameters := none, error := false }] 3 :=
  claim_C7.1 "q" 3 _ _ (by decide)

/-- C3: in the sequential path, executor exceptions are caught per
invocation: each requested tool of a round yields exactly one recorded
result, an exception becoming an error-flagged result with the error
description as content while every other requested tool is still executed
and recorded normally, and the loop proceeds to the next round. -/
theorem claim_C3 (oracle : Nat → ModelResponse) (tool_manager : ToolManager)
    (tools : List String) (query system_content : String)
    (fuel c : Nat) (m : List Message) (rs : List ToolResult) (i : Nat)
    (hstop : (oracle i).stop_reason = "tool_use") :
    (_execute_round_tools tool_manager c (oracle i).content).length =
        (toolUses (oracle i).content).length ∧
    (∀ (k : Nat) (b : ToolUseBlock), (toolUses (oracle i).content)[k]? = some b →
       (∀ e, tool_manager.execute_tool b.name b.input = Except.error e →
          (_execute_round_tools tool_manager c (oracle i).content)[k]? =
            some { tool_use_id := b.id, content := "Tool execution failed: " ++ e,
                   tool_name := b.name, round := c, parameters := none, error := true }) ∧
       (∀ s, tool_manager.execute_tool b.name b.input = Except.ok s →
          (_execute_round_tools tool_manager c (oracle i).content)[k]? =
            some { tool_use_id := b.id, content := s, tool_name := b.name,
                   round := c, parameters := some b.input, error := false })) ∧
    _execute_tool_rounds_loop oracle tool_manager tools query system_content
        (fuel + 1) c m rs i =
      { answer := (_execute_tool_rounds_loop oracle tool_manager tools query system_content
          fuel (c + 1)
          (m ++ [{ role := "assistant", content := MessageContent.blocks (oracle i).content },
                 { role := "user",
                   content := MessageContent.results
                     ((_execute_round_tools tool_manager c (oracle i).content).map
                       fun r => { tool_use_id := r.tool_use_id, content := r.content }) }])
          (rs ++ _execute_round_tools tool_manager c (oracle i).content) (i + 1)).answer,
        requests := { system := system_content ++ "\n\n" ++ _build_round_context query rs c,
                      messages := m, tools := some tools }
          :: (_execute_tool_rounds_loop oracle tool_manager tools query system_content
              fuel (c + 1)
              (m ++ [{ role := "assistant", content := MessageContent.blocks (oracle i).content },
                     { role := "user",
                       content := MessageContent.results
                         ((_execute_round_tools tool_manager c (oracle i).content).map
                           fun r => { tool_use_id := r.tool_use_id, content := r.content }) }])
              (rs ++ _execute_round_tools tool_manager c (oracle i).content) (i + 1)).requests,
        calls := ((toolUses (oracle i).content).map fun b =>
            { name := b.name, input := b.input, round := c })
          ++ (_execute_tool_rounds_loop oracle tool_manager tools query system_content
              fuel (c + 1)
              (m ++ [{ role := "assistant", content := MessageContent.blocks (oracle i).content },
                     { role := "user",
                       content := MessageContent.results
                         ((_execute_round_tools tool_manager c (oracle i).content).map
                           fun r => { tool_use_id := r.tool_use_id, content := r.content }) }])
              (rs ++ _execute_round_tools tool_manager c (oracle i).content) (i + 1)).calls } := by
  refine ⟨?_, ?_, ?_⟩
  · rw [exec_round_eq_map, List.length_map]
  · intro k b hk
    constructor
    · intro e he
      rw [exec_round_eq_map, List.getElem?_map, hk]
      simp [he]
    · intro s hs
      rw [exec_round_eq_map, List.getElem?_map, hk]
      simp [hs]
  · simp [_execute_tool_rounds_loop, hstop]

/-- C4: in the legacy single-round path with a `tool_use` first response and
an executor present, every requested tool is executed in the order the model gave
with no reordering or deduplication, one tool-result entry is appended per
request, an executor exception propagates uncaught, and otherwise exactly one
further tools-disabled request is issued and its text returned. -/
theorem claim_C4 (oracle : Nat → ModelResponse) (query : String)
    (conversation_history : Option String) (tools : Option (List String))
    (tm : ToolManager)
    (hstop : (oracle 0).stop_reason = "tool_use") :
    (∀ e calls, legacy_exec_tools tm (oracle 0).content = (Except.error e, calls) →
       (_generate_single_round_response oracle query conversation_history tools
           (some tm)).answer = Except.error (GenError.toolException e)) ∧
    (∀ out : ToolUseBlock → String,
       (∀ b ∈ toolUses (oracle 0).content,
          tm.execute_tool b.name b.input = Except.ok (out b)) →
       _generate_single_round_response oracle query conversation_history tools (some tm) =
         { answer := firstTextE (oracle 1),
           requests :=
             [{ system := build_system_content conversation_history,
                messages := [{ role := "user", content := MessageContent.str query }],
                tools := if toolsTruthy tools then tools else none },
              { system := build_system_content conversation_history,
                messages :=
                  [{ role := "user", content := MessageContent.str query },
                   { role := "assistant",
                     content := MessageContent.blocks (oracle 0).content }]
                  ++ (if ((toolUses (oracle 0).content).map fun b =>
                          ({ tool_use_id := b.id, content := out b } : ToolResultRef)).isEmpty
                      then []
                      else [{ role := "user",
                              content := MessageContent.results
                                ((toolUses (oracle 0).content).map fun b =>
                                  { tool_use_id := b.id, content := out b }) }]),
                tools := none }],
           calls := (toolUses (oracle 0).content).map fun b =>
             { name := b.name, input := b.input, round := 0 } }) := by
  constructor
  · intro e calls he
    simp only [_generate_single_round_response, hstop, if_pos, _handle_tool_execution, he]
  · intro out hout
    have hx := legacy_exec_tools_ok tm out (oracle 0).content hout
    simp only [_generate_single_round_response, hstop, if_pos, _handle_tool_execution, hx]
    cases htu : (toolUses (oracle 0).content).map fun b =>
        ({ tool_use_id := b.id, content := out b } : ToolResultRef) with
    | nil => simp [htu]
    | cons x xs => simp [htu]

/-- C1: a sequential-path run whose `maxRounds` responses all stop with
`tool_use` issues exactly `maxRounds + 1` model requests — `maxRounds` with
the tool schemas attached, then one final request without tools — executes
exactly the requested tools round by round across the `maxRounds` rounds, and
returns the text of the final tools-disabled synthesis request. -/
theorem claim_C1 (oracle : Nat → ModelResponse) (query : String)
    (conversation_history : Option String) (ts : List String) (tm : ToolManager)
    (n : Nat) (t : String) (tail : List ContentBlock)
    (hts : ts.isEmpty = false) (hn : 1 < n)
    (hall : ∀ j, j < n → (oracle j).stop_reason = "tool_use")
    (hsynth : (oracle n).content = ContentBlock.text t :: tail) :
    let run := generate_response oracle query conversation_history (some ts) (some tm) n true
    run.answer = Except.ok t ∧
    run.requests.length = n + 1 ∧
    (∀ req ∈ run.requests.take n, req.tools = some ts) ∧
    (∃ sreq, run.requests.drop n = [sreq] ∧ sreq.tools = none) ∧
    run.calls = callsFrom oracle n 1 0 ∧
    (∀ cl ∈ run.calls, 1 ≤ cl.round ∧ cl.round ≤ n) := by
  intro run
  have hdisp : run = _execute_tool_rounds oracle query conversation_history ts tm n := by
    simp only [run, generate_response]
    rw [if_pos ⟨hts, hn⟩]
  have hrun := tool_rounds_run oracle query conversation_history ts tm n hall
  have hlen := reqsFrom_length oracle tm ts query (build_system_content conversation_history)
    n 1 [{ role := "user", content := MessageContent.str query }] [] 0
  rw [hdisp, hrun]
  refine ⟨by simp [firstTextE, hsynth], ?_, ?_, ?_, rfl, ?_⟩
  · simp [hlen]
  · intro req hreq
    dsimp only at hreq
    rw [List.take_left' hlen] at hreq
    exact mem_reqsFrom_tools oracle tm ts query _ n 1 _ [] 0 req hreq
  · exact ⟨_, by dsimp only; rw [List.drop_left' hlen], rfl⟩
  · intro cl hcl
    dsimp only at hcl
    have := mem_callsFrom_round oracle n 1 0 cl hcl
    omega

/-- C6: when the sequential loop exhausts `maxRounds` without a direct
answer, the final synthesis request is issued with tools disabled and appends
a synthesis-instruction user turn built from the fixed goal-restating
template around the digest of all accumulated tool results — the digest being
the round-grouped rendering whose entries truncate content to 150 characters —
and `generate_response` returns the response text of that request. -/
theorem claim_C6 (oracle : Nat → ModelResponse) (query : String)
    (conversation_history : Option String) (ts : List String) (tm : ToolManager)
    (n : Nat) (t : String) (tail : List ContentBlock)
    (hts : ts.isEmpty = false) (hn : 1 < n)
    (hall : ∀ j, j < n → (oracle j).stop_reason = "tool_use")
    (hsynth : (oracle n).content = ContentBlock.text t :: tail) :
    let run := generate_response oracle query conversation_history (some ts) (some tm) n true
    run.requests.drop n =
      [{ system := build_system_content conversation_history,
         messages := endMessages oracle tm n 1
             [{ role := "user", content := MessageContent.str query }] 0
           ++ [{ role := "user",
                 content := MessageContent.str
                   (synthesisContextOf (_format_round_results
                     (endResults oracle tm n 1 [] 0))) }],
         tools := none }] ∧
    _format_round_results (endResults oracle tm n 1 [] 0) =
      (if (endResults oracle tm n 1 [] 0).isEmpty then "No tool results available."
       else joinWith "\n" (renderGroups (specGroups (endResults oracle tm n 1 [] 0)))) ∧
    run.answer = Except.ok t := by
  intro run
  have hdisp : run = _execute_tool_rounds oracle query conversation_history ts tm n := by
    simp only [run, generate_response]
    rw [if_pos ⟨hts, hn⟩]
  have hrun := tool_rounds_run oracle query conversation_history ts tm n hall
  have hlen := reqsFrom_length oracle tm ts query (build_system_content conversation_history)
    n 1 [{ role := "user", content := MessageContent.str query }] [] 0
  rw [hdisp, hrun]
  refine ⟨?_, format_results_eq_spec _, by simp [firstTextE, hsynth]⟩
  dsimp only
  rw [List.drop_left' hlen]

/-- Both legacy-path requests carry exactly the base system content. -/
theorem mem_legacy_requests_system (oracle : Nat → ModelResponse) (query : String)
    (conversation_history : Option String) (tools : Option (List String))
    (tool_manager : Option ToolManager) (req : ModelRequest)
    (hmem : req ∈ (_generate_single_round_response oracle query conversation_history tools
      tool_manager).requests) :
    req.system = build_system_content conversation_history := by
  by_cases hstop : (oracle 0).stop_reason = "tool_use"
  · cases tool_manager with
    | none =>
        simp only [_generate_single_round_response, hstop, if_pos,
          List.mem_singleton] at hmem
        rw [hmem]
    | some tm =>
        simp only [_generate_single_round_response, hstop, if_pos,
          _handle_tool_execution] at hmem
        rcases hx : legacy_exec_tools tm (oracle 0).content with ⟨res, calls⟩
        cases res with
        | error e =>
            rw [hx] at hmem
            simp only [List.mem_cons, List.not_mem_nil, or_false] at hmem
            rw [hmem]
        | ok trs =>
            rw [hx] at hmem
            simp only [List.mem_cons, List.not_mem_nil, or_false] at hmem
            rcases hmem with hmem | hmem
            · rw [hmem]
            · rw [hmem]
  · rw [legacy_direct oracle query conversation_history tools tool_manager hstop] at hmem
    simp only [List.mem_singleton] at hmem
    rw [hmem]

/-- Every request of any `generate_response` run (either path, any stop
reasons, any errors) has the base system content as a prefix of its system
text. -/
theorem mem_generate_requests_system (oracle : Nat → ModelResponse) (query : String)
    (conversation_history : Option String) (tools : Option (List String))
    (tool_manager : Option ToolManager) (max_tool_rounds : Nat)
    (enable_sequential : Bool) (req : ModelRequest)
    (hmem : req ∈ (generate_response oracle query conversation_history tools tool_manager
      max_tool_rounds enable_sequential).requests) :
    ∃ suffix, req.system = build_system_content conversation_history ++ suffix := by
  have hlegacy : req ∈ (_generate_single_round_response oracle query conversation_history
      tools tool_manager).requests →
      ∃ suffix, req.system = build_system_content conversation_history ++ suffix := by
    intro hm
    exact ⟨"", by
      rw [mem_legacy_requests_system oracle query conversation_history tools
        tool_manager req hm]
      simp⟩
  cases enable_sequential with
  | false => exact hlegacy hmem
  | true =>
      cases tools with
      | none => exact hlegacy hmem
      | some ts =>
          cases tool_manager with
          | none => exact hlegacy hmem
          | some tm =>
              by_cases hcond : ts.isEmpty = false ∧ 1 < max_tool_rounds
              · rw [show generate_response oracle query conversation_history (some ts)
                    (some tm) max_tool_rounds true =
                      _execute_tool_rounds oracle query conversation_history ts tm
                        max_tool_rounds by
                    simp only [generate_response]; rw [if_pos hcond]] at hmem
                unfold _execute_tool_rounds at hmem
                exact mem_loop_requests_system oracle tm ts query _ max_tool_rounds 1 _ [] 0
                  req hmem
              · rw [show generate_response oracle query conversation_history (some ts)
                    (some tm) max_tool_rounds true =
                      _generate_single_round_response oracle query conversation_history
                        (some ts) (some tm) by
                    simp only [generate_response]; rw [if_neg hcond]] at hmem
                exact hlegacy hmem

/-- C9: a non-empty conversation-history string appears verbatim inside the
system text of every model request a `generate_response` call issues — on the
legacy path and its follow-up as well as on every sequential round request
and the synthesis request. -/
theorem claim_C9 (oracle : Nat → ModelResponse) (query h : String)
    (tools : Option (List String)) (tool_manager : Option ToolManager)
    (max_tool_rounds : Nat) (enable_sequential : Bool) (hne : h ≠ "") :
    ∀ req ∈ (generate_response oracle query (some h) tools tool_manager
        max_tool_rounds enable_sequential).requests,
      h.data <:+: req.system.data := by
  intro req hmem
  obtain ⟨suffix, hs⟩ := mem_generate_requests_system oracle query (some h) tools
    tool_manager max_tool_rounds enable_sequential req hmem
  rw [hs]
  have hbs : build_system_content (some h) =
      SYSTEM_PROMPT ++ "\n\nPrevious conversation:\n" ++ h := by
    simp [build_system_content, hne]
  rw [hbs]
  exact ⟨(SYSTEM_PROMPT ++ "\n\nPrevious conversation:\n").data, suffix.data, by
    simp [String.data_append, List.append_assoc]⟩

/-- The turns appended by rounds that stop with `tool_use` but request no
tools: one assistant turn and one user turn with an empty tool-result list
per round. -/
def emptyRoundMessages (oracle : Nat → ModelResponse) : Nat → Nat → List Message
  | 0, _ => []
  | f + 1, i =>
      [{ role := "assistant", content := MessageContent.blocks (oracle i).content },
       { role := "user", content := MessageContent.results [] }]
        ++ emptyRoundMessages oracle f (i + 1)

/-- With no tool-use blocks in any round, no results accumulate. -/
theorem endResults_no_tools (oracle : Nat → ModelResponse) (tool_manager : ToolManager) :
    ∀ (f c : Nat) (rs : List ToolResult) (i : Nat),
      (∀ j, j < f → toolUses (oracle (i + j)).content = []) →
      endResults oracle tool_manager f c rs i = rs := by
  intro f
  induction f with
  | zero => intro c rs i _h; rfl
  | succ f ih =>
      intro c rs i h
      have h0 : toolUses (oracle i).content = [] := by simpa using h 0 (Nat.succ_pos f)
      simp only [endResults, exec_round_nil tool_manager c _ h0, List.append_nil]
      exact ih (c + 1) rs (i + 1) (by
        intro j hj
        have h2 : i + 1 + j = i + (j + 1) := by omega
        rw [h2]
        exact h (j + 1) (by omega))

/-- With no tool-use blocks in any round, each round appends its assistant
turn and a user turn carrying an empty tool-result list. -/
theorem endMessages_no_tools (oracle : Nat → ModelResponse) (tool_manager : ToolManager) :
    ∀ (f c : Nat) (m : List Message) (i : Nat),
      (∀ j, j < f → toolUses (oracle (i + j)).content = []) →
      endMessages oracle tool_manager f c m i = m ++ emptyRoundMessages oracle f i := by
  intro f
  induction f with
  | zero => intro c m i _h; simp [endMessages, emptyRoundMessages]
  | succ f ih =>
      intro c m i h
      have h0 : toolUses (oracle i).content = [] := by simpa using h 0 (Nat.succ_pos f)
      simp only [endMessages, stepMessages, exec_round_nil tool_manager c _ h0,
        List.map_nil, emptyRoundMessages]
      rw [ih (c + 1) _ (i + 1) (by
        intro j hj
        have h2 : i + 1 + j = i + (j + 1) := by omega
        rw [h2]
        exact h (j + 1) (by omega))]
      simp [List.append_assoc]

/-- With no tool-use blocks in any round, no executor invocation happens. -/
theorem callsFrom_no_tools (oracle : Nat → ModelResponse) :
    ∀ (f c i : Nat),
      (∀ j, j < f → toolUses (oracle (i + j)).content = []) →
      callsFrom oracle f c i = [] := by
  intro f
  induction f with
  | zero => intro c i _h; rfl
  | succ f ih =>
      intro c i h
      have h0 : toolUses (oracle i).content = [] := by simpa using h 0 (Nat.succ_pos f)
      simp only [callsFrom, h0, List.map_nil, List.nil_append]
      exact ih (c + 1) (i + 1) (by
        intro j hj
        have h2 : i + 1 + j = i + (j + 1) := by omega
        rw [h2]
        exact h (j + 1) (by omega))

/-- With no accumulated results, every round request keeps the tool schemas
attached and its round context is the `Initial analysis` marker of its round
number. -/
theorem mem_reqsFrom_no_tools (oracle : Nat → ModelResponse) (tool_manager : ToolManager)
    (tools : List String) (query system_content : String) :
    ∀ (f c : Nat) (m : List Message) (i : Nat),
      (∀ j, j < f → toolUses (oracle (i + j)).content = []) →
      ∀ req ∈ reqsFrom oracle tool_manager tools query system_content f c m [] i,
        req.tools = some tools ∧
        ∃ k, c ≤ k ∧ k < c + f ∧
          req.system = system_content ++ "\n\n" ++
            ("Round " ++ toString k ++ ": Initial analysis of query.") := by
  intro f
  induction f with
  | zero => intro c m i _h req hmem; simp [reqsFrom] at hmem
  | succ f ih =>
      intro c m i h req hmem
      have h0 : toolUses (oracle i).content = [] := by simpa using h 0 (Nat.succ_pos f)
      simp only [reqsFrom, exec_round_nil tool_manager c _ h0, List.append_nil,
        List.nil_append, List.mem_cons] at hmem
      rcases hmem with hmem | hmem
      · refine ⟨by rw [hmem], c, Nat.le_refl c, by omega, ?_⟩
        rw [hmem]
        simp [_build_round_context]
      · have := ih (c + 1) _ (i + 1) (by
          intro j hj
          have h2 : i + 1 + j = i + (j + 1) := by omega
          rw [h2]
          exact h (j + 1) (by omega)) req hmem
        obtain ⟨htools, k, hk1, hk2, hk3⟩ := this
        exact ⟨htools, k, by omega, by omega, hk3⟩

/-- C10: a sequential round whose response stops with `tool_use` but contains
no tool-use blocks still counts against `maxRounds`: zero tools are executed,
the assistant turn plus a user turn with an empty tool-result list are
appended, and the loop advances; when this happens in every round, every
round request carries the `Initial analysis` marker as its context and the
synthesis digest is the `No tool results available.` sentinel. -/
theorem claim_C10 (oracle : Nat → ModelResponse) (query : String)
    (conversation_history : Option String) (ts : List String) (tm : ToolManager)
    (n : Nat) (t : String) (tail : List ContentBlock)
    (hts : ts.isEmpty = false) (hn : 1 < n)
    (hall : ∀ j, j < n → (oracle j).stop_reason = "tool_use")
    (hnotools : ∀ j, j < n → toolUses (oracle j).content = [])
    (hsynth : (oracle n).content = ContentBlock.text t :: tail) :
    let run := generate_response oracle query conversation_history (some ts) (some tm) n true
    run.calls = [] ∧
    run.requests.length = n + 1 ∧
    (∀ req ∈ run.requests.take n,
       req.tools = some ts ∧
       ∃ k, 1 ≤ k ∧ k ≤ n ∧
         req.system = build_system_content conversation_history ++ "\n\n" ++
           ("Round " ++ toString k ++ ": Initial analysis of query.")) ∧
    run.requests.drop n =
      [{ system := build_system_content conversation_history,
         messages := ({ role := "user", content := MessageContent.str query }
             :: emptyRoundMessages oracle n 0)
           ++ [{ role := "user",
                 content := MessageContent.str
                   (synthesisContextOf "No tool results available.") }],
         tools := none }] ∧
    run.answer = Except.ok t := by
  intro run
  have hdisp : run = _execute_tool_rounds oracle query conversation_history ts tm n := by
    simp only [run, generate_response]
    rw [if_pos ⟨hts, hn⟩]
  have hrun := tool_rounds_run oracle query conversation_history ts tm n hall
  have hlen := reqsFrom_length oracle tm ts query (build_system_content conversation_history)
    n 1 [{ role := "user", content := MessageContent.str query }] [] 0
  have hnt : ∀ j, j < n → toolUses (oracle (0 + j)).content = [] := by
    intro j hj
    simpa using hnotools j hj
  rw [hdisp, hrun]
  refine ⟨?_, by simp [hlen], ?_, ?_, by simp [firstTextE, hsynth]⟩
  · dsimp only
    exact callsFrom_no_tools oracle n 1 0 hnt
  · intro req hreq
    dsimp only at hreq
    rw [List.take_left' hlen] at hreq
    have := mem_reqsFrom_no_tools oracle tm ts query
      (build_system_content conversation_history) n 1 _ 0 hnt req hreq
    obtain ⟨htools, k, hk1, hk2, hk3⟩ := this
    exact ⟨htools, k, hk1, by omega, hk3⟩
  · dsimp only
    rw [List.drop_left' hlen]
    rw [endMessages_no_tools oracle tm n 1 _ 0 hnt,
      endResults_no_tools oracle tm n 1 [] 0 hnt]
    rfl

/-! ## Concrete fixtures -/

/-- Fixture: two tool-use rounds, then a final text answer. -/
def sampleOracle : Nat → ModelResponse := fun i =>
  if i = 0 then
    { stop_reason := "tool_use",
      content := [ContentBlock.tool_use
        { name := "get_course_outline", id := "t1", input := [("course_name", "X")] }] }
  else if i = 1 then
    { stop_reason := "tool_use",
      content := [ContentBlock.tool_use
        { name := "search_course_content", id := "t2", input := [("query", "y")] }] }
  else { stop_reason := "end_turn", content := [ContentBlock.text "final answer"] }

/-- Fixture: an executor that always succeeds. -/
def sampleManager : ToolManager :=
  { execute_tool := fun n _ => Except.ok ("result for " ++ n) }

/-- Fixture: a model that answers directly, never requesting tools. -/
def directOracle : Nat → ModelResponse := fun _ =>
  { stop_reason := "end_turn", content := [ContentBlock.text "direct answer"] }

/-- Fixture: an executor that fails on the content-search tool only. -/
def failingManager : ToolManager :=
  { execute_tool := fun n _ =>
      if n = "search_course_content" then Except.error "boom"
      else Except.ok ("ok " ++ n) }

/-- Fixture: a first response requesting a failing tool then a succeeding
one. -/
def mixedOracle : Nat → ModelResponse := fun i =>
  if i = 0 then
    { stop_reason := "tool_use",
      content := [ContentBlock.tool_use
          { name := "search_course_content", id := "a", input := [] },
        ContentBlock.tool_use
          { name := "get_course_outline", id := "b", input := [] }] }
  else { stop_reason := "end_turn", content := [ContentBlock.text "done"] }

/-- Fixture: responses that stop with `tool_use` but contain no tool-use
blocks for two rounds, then a text answer. -/
def emptyToolUseOracle : Nat → ModelResponse := fun i =>
  if i < 2 then { stop_reason := "tool_use", content := [ContentBlock.text "thinking"] }
  else { stop_reason := "end_turn", content := [ContentBlock.text "synth answer"] }

theorem claim_C1_witness :
    let run := generate_response sampleOracle "q" none (some ["s"]) (some sampleManager) 2 true
    run.answer = Except.ok "final answer" ∧
    run.requests.length = 2 + 1 ∧
    (∀ req ∈ run.requests.take 2, req.tools = some ["s"]) ∧
    (∃ sreq, run.requests.drop 2 = [sreq] ∧ sreq.tools = none) ∧
    run.calls = callsFrom sampleOracle 2 1 0 ∧
    (∀ cl ∈ run.calls, 1 ≤ cl.round ∧ cl.round ≤ 2) :=
  claim_C1 sampleOracle "q" none ["s"] sampleManager 2 "final answer" [] rfl (by decide)
    (by decide) rfl

theorem claim_C2_witness :
    (generate_response directOracle "q" (some "h") none none 2 true).answer =
        Except.ok "direct answer" ∧
    (generate_response directOracle "q" (some "h") none none 2 true).requests.length = 1 :=
  claim_C2 directOracle "q" (some "h") none none 2 true "direct answer" [] (by decide) rfl

theorem claim_C3_witness :
    (mixedOracle 0).stop_reason = "tool_use" ∧
    (_execute_round_tools failingManager 1 (mixedOracle 0).content).length =
      (toolUses (mixedOracle 0).content).length :=
  ⟨rfl, (claim_C3 mixedOracle failingManager ["s"] "q" "sys" 1 1 [] [] 0 rfl).1⟩

theorem claim_C4_witness :
    (mixedOracle 0).stop_reason = "tool_use" ∧
    (_generate_single_round_response mixedOracle "q" none none (some failingManager)).answer =
      Except.error (GenError.toolException "boom") :=
  ⟨rfl, (claim_C4 mixedOracle "q" none none failingManager rfl).1 "boom"
    [{ name := "search_course_content", input := [], round := 0 }] rfl⟩

theorem claim_C5_witness :
    generate_response directOracle "q" none (some ["s"]) (some sampleManager) 2 true =
      _execute_tool_rounds directOracle "q" none ["s"] sampleManager 2 :=
  (claim_C5 directOracle "q" none (some ["s"]) (some sampleManager) 2 true).2
    ["s"] sampleManager rfl rfl rfl rfl (by decide)

theorem claim_C6_witness :
    let run := generate_response sampleOracle "q" none (some ["s"]) (some sampleManager) 2 true
    run.requests.drop 2 =
      [{ system := build_system_content none,
         messages := endMessages sampleOracle sampleManager 2 1
             [{ role := "user", content := MessageContent.str "q" }] 0
           ++ [{ role := "user",
                 content := MessageContent.str
                   (synthesisContextOf (_format_round_results
                     (endResults sampleOracle sampleManager 2 1 [] 0))) }],
         tools := none }] ∧
    _format_round_results (endResults sampleOracle sampleManager 2 1 [] 0) =
      (if (endResults sampleOracle sampleManager 2 1 [] 0).isEmpty
       then "No tool results available."
       else joinWith "\n" (renderGroups (specGroups
         (endResults sampleOracle sampleManager 2 1 [] 0)))) ∧
    run.answer = Except.ok "final answer" :=
  claim_C6 sampleOracle "q" none ["s"] sampleManager 2 "final answer" [] rfl (by decide)
    (by decide) rfl

theorem claim_C9_witness :
    "HIST".data <:+: (ModelRequest.mk (build_system_content (some "HIST"))
      [{ role := "user", content := MessageContent.str "q" }] none).system.data :=
  claim_C9 directOracle "q" "HIST" none none 2 true (by decide)
    (ModelRequest.mk (build_system_content (some "HIST"))
      [{ role := "user", content := MessageContent.str "q" }] none)
    (by
      rw [show generate_response directOracle "q" (some "HIST") none none 2 true =
          _generate_single_round_response directOracle "q" (some "HIST") none none from rfl,
        legacy_direct directOracle "q" (some "HIST") none none (by decide)]
      simp [toolsTruthy])

theorem claim_C10_witness :
    let run := generate_response emptyToolUseOracle "q" none (some ["s"])
      (some sampleManager) 2 true
    run.calls = [] ∧
    run.requests.length = 2 + 1 ∧
    (∀ req ∈ run.requests.take 2,
       req.tools = some ["s"] ∧
       ∃ k, 1 ≤ k ∧ k ≤ 2 ∧
         req.system = build_system_content none ++ "\n\n" ++
           ("Round " ++ toString k ++ ": Initial analysis of query.")) ∧
    run.requests.drop 2 =
      [{ system := build_system_content none,
         messages := ({ role := "user", content := MessageContent.str "q" }
             :: emptyRoundMessages emptyToolUseOracle 2 0)
           ++ [{ role := "user",
                 content := MessageContent.str
                   (synthesisContextOf "No tool results available.") }],
         tools := none }] ∧
    run.answer = Except.ok "synth answer" :=
  claim_C10 emptyToolUseOracle "q" none ["s"] sampleManager 2 "synth answer" [] rfl
    (by decide) (by decide) (by decide) rfl
